import Mathlib

/- Verification of the petal metadata gateway client against its
   specification.  The definitions below are a shallow embedding of
   src/meta/track.rs, src/meta/schedule.rs, src/meta/gateway.rs and
   src/meta/controller.rs.

   Time is modelled as integer nanoseconds since the Unix epoch.  On the
   target platform SystemTime stores whole seconds in a signed 64-bit
   integer together with a nanosecond remainder in [0, 10^9), so the
   representable range is [SYSTIME_MIN_NS, SYSTIME_MAX_NS]; checked_add
   and checked_sub return none when the result leaves that range.
   Durations (u64 milliseconds of lag, u32 seconds of track length) are
   modelled as Nat. -/

/-- Smallest representable SystemTime instant: -(2^63) seconds, in nanoseconds. -/
def SYSTIME_MIN_NS : Int := -9223372036854775808000000000

/-- Largest representable SystemTime instant: (2^63 - 1) seconds plus
    999999999 nanoseconds, in nanoseconds. -/
def SYSTIME_MAX_NS : Int := 9223372036854775807999999999

/-- SystemTime::checked_add with a Duration of d nanoseconds: fails (none)
    exactly when the result would exceed the representable range. -/
def sysCheckedAdd (t : Int) (d : Nat) : Option Int :=
  if t + (d : Int) ≤ SYSTIME_MAX_NS then some (t + (d : Int)) else none

/-- SystemTime::checked_sub with a Duration of d nanoseconds: fails (none)
    exactly when the result would fall below the representable range. -/
def sysCheckedSub (t : Int) (d : Nat) : Option Int :=
  if SYSTIME_MIN_NS ≤ t - (d : Int) then some (t - (d : Int)) else none

/-- Duration::from_millis, in nanoseconds. -/
def lagNs (lag_ms : Nat) : Nat := lag_ms * 1000000

/-- Duration::from_secs, in nanoseconds. -/
def durNs (secs : Nat) : Nat := secs * 1000000000

/-- TrackInfo from src/meta/track.rs.  start_time_utc is a SystemTime
    (nanoseconds since the epoch), duration_secs a u32 (0 = unknown). -/
structure TrackInfo where
  artist : String
  title : String
  album_cover : Option String
  artist_image : Option String
  start_time_utc : Int
  duration_secs : Nat
  deriving DecidableEq, Repr

/-- The per-track test of the preferred rule in pick_track_for_playback
    (src/meta/schedule.rs lines 19-27): duration known and positive, the
    checked end time exists, and playback_now lies in [start, end). -/
def durationWindowHit (playback_now : Int) (t : TrackInfo) : Bool :=
  if t.duration_secs = 0 then false
  else
    match sysCheckedAdd t.start_time_utc (durNs t.duration_secs) with
    | some e => decide (playback_now ≥ t.start_time_utc) && decide (playback_now < e)
    | none => false

/-- pick_track_for_playback from src/meta/schedule.rs lines 12-37.  The
    history list holds the oldest entry first (VecDeque front), so the
    iter().rev() scan of the source is a find? over the reversed list.
    The now argument makes the SystemTime::now() call explicit. -/
def pick_track_for_playback (now : Int) (history : List TrackInfo) (lag_ms : Nat) :
    Option TrackInfo :=
  match sysCheckedSub now (lagNs lag_ms) with
  | none => none
  | some playback_now =>
    match (history.reverse).find? (durationWindowHit playback_now) with
    | some hit => some hit
    | none => (history.reverse).find? (fun t => decide (playback_now ≥ t.start_time_utc))

/-- The body run at wake time by the thread spawned in schedule_ui_switch
    (src/meta/schedule.rs lines 46-57).  The checked target time and the
    timed wait decide only whether the thread sleeps (first component);
    after the optional sleep the generation counter is loaded and the track
    is sent exactly when it still equals my_id (second component). -/
def schedule_ui_switch_fire (now_at_wake : Int) (counter_at_fire : Nat)
    (track : TrackInfo) (lag_ms : Nat) (my_id : Nat) : Bool × Option TrackInfo :=
  let slept :=
    match sysCheckedAdd track.start_time_utc (lagNs lag_ms) with
    | some target => decide (now_at_wake ≤ target)
    | none => false
  (slept, if counter_at_fire = my_id then some track else none)

/-- The shared generation counter ui_sched_id is only ever updated by
    fetch_add(1) (src/meta/gateway.rs lines 149, 156, 162, 239 and
    src/meta/schedule.rs line 81), so its value after b increments from an
    initial value g0 is g0 + b. -/
def genCounterValue (g0 bumps : Nat) : Nat := g0 + bumps

/-- A fresh schedule captures my_id = fetch_add(1) + 1 (src/meta/gateway.rs
    line 239, src/meta/schedule.rs line 81): the pair is (captured id,
    counter value right after the increment). -/
def captureScheduleId (gen : Nat) : Nat × Nat := (gen + 1, gen + 1)

/-- Rust Iterator::min_by_key over start_time_utc, as used in
    schedule_next_from_history (src/meta/schedule.rs line 76): fold that
    keeps the current minimum and replaces it only on a strictly smaller
    key, so the first of several equal minima is returned. -/
def minByStartStep (acc : Option TrackInfo) (t : TrackInfo) : Option TrackInfo :=
  match acc with
  | none => some t
  | some m => if t.start_time_utc < m.start_time_utc then some t else some m

/-- Iterator::min_by_key over start_time_utc for a whole list. -/
def minByStart (l : List TrackInfo) : Option TrackInfo :=
  l.foldl minByStartStep none

/-- schedule_next_from_history from src/meta/schedule.rs lines 60-94, with
    the effect on the generation counter made explicit.  Returns the armed
    switch (the chosen track together with its captured schedule id) and
    the counter value afterwards; on playback-time underflow or an empty
    future set nothing is armed and the counter is untouched. -/
def schedule_next_from_history_model (now : Int) (history : List TrackInfo)
    (lag_ms : Nat) (gen : Nat) : Option (TrackInfo × Nat) × Nat :=
  match sysCheckedSub now (lagNs lag_ms) with
  | none => (none, gen)
  | some playback_now =>
    match minByStart (history.filter (fun t => decide (playback_now < t.start_time_utc))) with
    | none => (none, gen)
    | some next => (some (next, gen + 1), gen + 1)

/-- History update on a decoded TRACK_UPDATE (src/meta/gateway.rs lines
    232-235): when the length already equals 32 the front (oldest) entry is
    popped before the new track is pushed at the back. -/
def recordTrack (history : List TrackInfo) (info : TrackInfo) : List TrackInfo :=
  (if history.length = 32 then history.drop 1 else history) ++ [info]

/-- The history obtained from the fresh per-session history (gateway.rs
    line 143) after recording the given tracks in order. -/
def historyAfter (tracks : List TrackInfo) : List TrackInfo :=
  tracks.foldl recordTrack []

/-- Processing of a Resume control message inside the session loop
    (src/meta/gateway.rs lines 158-176). -/
structure ResumeOutcome where
  paused : Bool
  emitted : Option TrackInfo
  armed : Option (TrackInfo × Nat)
  genAfter : Nat
  deriving DecidableEq, Repr

/-- The Resume arm of run_once (src/meta/gateway.rs lines 158-176): clear
    the paused flag, bump the generation counter, synchronously emit the
    pick_track_for_playback result when present, then run
    schedule_next_from_history (which bumps the counter again exactly when
    it arms a switch). -/
def processResume (now : Int) (history : List TrackInfo) (lag_ms gen : Nat) :
    ResumeOutcome :=
  let emitted := pick_track_for_playback now history lag_ms
  let sn := schedule_next_from_history_model now history lag_ms (gen + 1)
  ⟨false, emitted, sn.1, sn.2⟩

/-- Control messages of src/meta/controller.rs. -/
inductive Control
  | Stop
  | Pause
  | Resume
  deriving DecidableEq, Repr

/-- One mpsc control channel, seen from the receiver: the queued messages
    in send order and whether a sender is still alive. -/
structure ControlChannel where
  queue : List Control
  senderAlive : Bool
  deriving DecidableEq, Repr

/-- Result of mpsc::Receiver::try_recv. -/
inductive TryRecvResult
  | msg (c : Control)
  | empty
  | disconnected
  deriving DecidableEq, Repr

/-- try_recv: pops the front message when one is queued; on an empty queue
    reports Empty while a sender lives and Disconnected afterwards. -/
def tryRecv (ch : ControlChannel) : TryRecvResult × ControlChannel :=
  match ch.queue with
  | [] => (if ch.senderAlive then TryRecvResult.empty else TryRecvResult.disconnected, ch)
  | c :: rest => (TryRecvResult.msg c, ⟨rest, ch.senderAlive⟩)

/-- Sender::send: enqueues while the sender is held (the controller only
    sends through the tx it owns). -/
def sendControl (ch : ControlChannel) (c : Control) : ControlChannel :=
  ⟨ch.queue ++ [c], ch.senderAlive⟩

/-- Meta::stop_inner (src/meta/controller.rs lines 118-123) as seen by the
    worker: a Stop message is sent and then the state is replaced by
    Stopped, dropping the only sender, so the channel disconnects. -/
def stop_inner_channel (ch : ControlChannel) : ControlChannel :=
  ⟨ch.queue ++ [Control.Stop], false⟩

/-- How one call of run_once ended, as far as the outer loop can tell. -/
inductive SessionEnd
  | sawStop
  | closedNormally
  | failed
  deriving DecidableEq, Repr

/-- The queue left after the session loop consumed control messages one per
    iteration and broke at the first Stop (src/meta/gateway.rs lines
    147-151). -/
def dropThroughStop : List Control → List Control
  | [] => []
  | Control.Stop :: rest => rest
  | Control.Pause :: rest => dropThroughStop rest
  | Control.Resume :: rest => dropThroughStop rest

/-- run_meta_loop from src/meta/gateway.rs lines 77-113, counting how many
    sessions (run_once calls) are started.  Each iteration first drains one
    control message and returns on Stop or disconnection; after a session
    both the Ok and the Err arms do the same try_recv check, returning on
    Stop or disconnection and otherwise sleeping and retrying, so the
    session outcome does not change the control flow modelled here.  The
    fuel argument bounds the number of loop iterations. -/
def runMetaLoop (sess : ControlChannel → ControlChannel × SessionEnd) :
    Nat → ControlChannel → Nat
  | 0, _ => 0
  | fuel + 1, ch =>
    match tryRecv ch with
    | (TryRecvResult.msg Control.Stop, _) => 0
    | (TryRecvResult.disconnected, _) => 0
    | (_, ch1) =>
      match tryRecv (sess ch1).1 with
      | (TryRecvResult.msg Control.Stop, _) => 1
      | (TryRecvResult.disconnected, _) => 1
      | (_, ch3) => 1 + runMetaLoop sess fuel ch3

/-- Decode outcome of the first server message of a session, classified by
    the branches of read_hello_heartbeat (src/meta/gateway.rs lines
    268-288).  textEnvelope carries the decoded op together with the result
    of decoding the payload as a GatewayHello (only consulted when op is
    the hello opcode 0). -/
inductive FirstMessage
  | nonText
  | textNoEnvelope
  | textEnvelope (op : Nat) (helloHeartbeat : Option Nat)
  | connectionClosed
  | transportFailure
  deriving DecidableEq, Repr

/-- Result of read_hello_heartbeat: either Ok with an optional heartbeat
    interval in milliseconds, or an error that ends the session. -/
inductive HelloResult
  | ok (heartbeat : Option Nat)
  | sessionError
  deriving DecidableEq, Repr

/-- read_hello_heartbeat from src/meta/gateway.rs lines 268-288.  A text
    message that fails to decode as a GatewayEnvelope propagates the serde
    error (line 276), as does a hello envelope whose payload fails to
    decode as GatewayHello (line 279); a decoded non-hello envelope, a
    non-text message and a closed connection all yield Ok(None). -/
def read_hello_heartbeat : FirstMessage → HelloResult
  | FirstMessage.nonText => HelloResult.ok none
  | FirstMessage.textNoEnvelope => HelloResult.sessionError
  | FirstMessage.textEnvelope op hb =>
    if op = 0 then
      match hb with
      | some h => HelloResult.ok (some h)
      | none => HelloResult.sessionError
    else HelloResult.ok none
  | FirstMessage.connectionClosed => HelloResult.ok none
  | FirstMessage.transportFailure => HelloResult.sessionError

/-- Frames the client sends during session setup. -/
inductive ClientFrame
  | heartbeatFrame
  deriving DecidableEq, Repr

/-- Session setup (src/meta/gateway.rs lines 134-140): read the hello; on
    an error the session aborts before sending anything; on Ok exactly one
    immediate heartbeat frame is sent, whether or not an interval was
    obtained, and the interval only arms the later periodic timer. -/
def sessionSetup (m : FirstMessage) : Option (List ClientFrame × Option Nat) :=
  match read_hello_heartbeat m with
  | HelloResult.sessionError => none
  | HelloResult.ok hb => some ([ClientFrame.heartbeatFrame], hb)

/-- Whether the periodic heartbeat timer exists for the session
    (src/meta/gateway.rs lines 139-140 and 181-189): only when an interval
    was obtained from the hello. -/
def periodicHeartbeatArmed (heartbeat_ms : Option Nat) : Bool :=
  heartbeat_ms.isSome

/-- Controller state from src/meta/controller.rs: Stopped, or Running with
    the control channel to the worker. -/
inductive MetaState
  | stopped
  | running (chan : ControlChannel)
  deriving DecidableEq, Repr

/-- Meta::start (src/meta/controller.rs lines 68-83).  Returns the new
    state and whether a worker thread was spawned: when already Running it
    sends Control::Resume over the existing channel and spawns nothing;
    when Stopped it creates a fresh channel and spawns the worker. -/
def Meta.start : MetaState → MetaState × Bool
  | MetaState.running ch => (MetaState.running (sendControl ch Control.Resume), false)
  | MetaState.stopped => (MetaState.running ⟨[], true⟩, true)

/-- Artist entry of the gateway song payload (src/meta/gateway.rs lines
    51-55). -/
structure Artist where
  name : Option String
  image : Option String
  deriving DecidableEq, Repr

/-- Album entry of the gateway song payload (src/meta/gateway.rs lines
    57-60). -/
structure Album where
  image : Option String
  deriving DecidableEq, Repr

/-- Song of the gateway payload (src/meta/gateway.rs lines 41-49). -/
structure Song where
  title : Option String
  artists : List Artist
  albums : List Album
  duration : Option Nat
  deriving DecidableEq, Repr

/-- GatewaySongPayload (src/meta/gateway.rs lines 34-39). -/
structure GatewaySongPayload where
  song : Song
  start_time : String
  deriving DecidableEq, Repr

/-- ALBUM_COVER_BASE from src/meta/track.rs. -/
def ALBUM_COVER_BASE : String := "https://cdn.listen.moe/covers/"

/-- ARTIST_IMAGE_BASE from src/meta/track.rs. -/
def ARTIST_IMAGE_BASE : String := "https://cdn.listen.moe/artists/"

/-- parse_track_info from src/meta/gateway.rs lines 291-334.  The serde
    decode of the payload is modelled by the optional decoded argument, and
    the RFC 3339 parse of startTime (the time crate) by the parseTime
    oracle; both return none exactly when the source returns None via the
    question-mark operators on lines 292 and 300. -/
def parse_track_info (parseTime : String → Option Int)
    (decoded : Option GatewaySongPayload) : Option TrackInfo :=
  match decoded with
  | none => none
  | some payload =>
    match parseTime payload.start_time with
    | none => none
    | some start_time_utc =>
      let duration_secs := payload.song.duration.getD 0
      let title := payload.song.title.getD "unknown title"
      let artist :=
        if payload.song.artists.isEmpty then "Unknown artist"
        else String.intercalate ", " (payload.song.artists.filterMap (fun a => a.name))
      let album_cover :=
        (payload.song.albums.head?.bind (fun album => album.image)).map
          (fun name => ALBUM_COVER_BASE ++ name)
      let artist_image :=
        (payload.song.artists.head?.bind (fun a => a.image)).map
          (fun name => ARTIST_IMAGE_BASE ++ name)
      some ⟨artist, title, album_cover, artist_image, start_time_utc, duration_secs⟩

/-- The pick rule in the words of the specification (section 4.2): compute
    playback_now with checked subtraction and return no match on
    underflow; otherwise scan the history most-recent first and return the
    first track with a positive known duration whose half-open interval
    [start, start + duration) contains playback_now, where the end of the
    interval is a checked addition per section 4.1; when no track matches,
    return the most recent track whose start_time is at most playback_now;
    otherwise no match. -/
def specPreferred (playback_now : Int) (t : TrackInfo) : Bool :=
  decide (0 < t.duration_secs) &&
    match sysCheckedAdd t.start_time_utc (durNs t.duration_secs) with
    | some e => decide (t.start_time_utc ≤ playback_now) && decide (playback_now < e)
    | none => false

/-- Fallback rule of the specification: start_time at most playback_now. -/
def specFallback (playback_now : Int) (t : TrackInfo) : Bool :=
  decide (t.start_time_utc ≤ playback_now)

/-- pick_for_offset as the specification states it (sections 4.2 and 8). -/
def pick_for_offset_spec (now : Int) (history : List TrackInfo) (lag_ms : Nat) :
    Option TrackInfo :=
  match sysCheckedSub now (lagNs lag_ms) with
  | none => none
  | some playback_now =>
    match (history.reverse).find? (specPreferred playback_now) with
    | some t => some t
    | none => (history.reverse).find? (specFallback playback_now)

/- Helper lemmas (shared by several claim theorems). -/

/-- Unfolding step of minByStart over a some accumulator. -/
theorem minByStartStep_some (m t : TrackInfo) :
    minByStartStep (some m) t =
      if t.start_time_utc < m.start_time_utc then some t else some m := rfl

/-- A fold of minByStartStep starting from a some accumulator never
    returns none. -/
theorem minByStart_go_ne_none (l : List TrackInfo) :
    ∀ m : TrackInfo, List.foldl minByStartStep (some m) l ≠ none := by
  induction l with
  | nil => intro m h; simp at h
  | cons u l ih =>
    intro m h
    rw [List.foldl_cons, minByStartStep_some] at h
    by_cases hc : u.start_time_utc < m.start_time_utc
    · rw [if_pos hc] at h; exact ih u h
    · rw [if_neg hc] at h; exact ih m h

/-- A fold of minByStartStep starting from a some accumulator returns an
    element of the list or the accumulator, of minimal start time. -/
theorem minByStart_go (l : List TrackInfo) :
    ∀ m t : TrackInfo, List.foldl minByStartStep (some m) l = some t →
      (t = m ∨ t ∈ l) ∧ t.start_time_utc ≤ m.start_time_utc ∧
        ∀ u ∈ l, t.start_time_utc ≤ u.start_time_utc := by
  induction l with
  | nil =>
    intro m t h
    simp only [List.foldl_nil, Option.some.injEq] at h
    subst h
    exact ⟨Or.inl rfl, le_refl _, by simp⟩
  | cons u l ih =>
    intro m t h
    rw [List.foldl_cons, minByStartStep_some] at h
    by_cases hc : u.start_time_utc < m.start_time_utc
    · rw [if_pos hc] at h
      obtain ⟨hmem, hle, hall⟩ := ih u t h
      refine ⟨Or.inr ?_, le_trans hle (le_of_lt hc), ?_⟩
      · cases hmem with
        | inl he => exact he ▸ List.mem_cons_self u l
        | inr hm => exact List.mem_cons_of_mem u hm
      · intro v hv
        cases List.mem_cons.mp hv with
        | inl he => exact he ▸ hle
        | inr hm => exact hall v hm
    · rw [if_neg hc] at h
      obtain ⟨hmem, hle, hall⟩ := ih m t h
      refine ⟨?_, hle, ?_⟩
      · cases hmem with
        | inl he => exact Or.inl he
        | inr hm => exact Or.inr (List.mem_cons_of_mem u hm)
      · intro v hv
        cases List.mem_cons.mp hv with
        | inl he => exact he ▸ le_trans hle (le_of_not_lt hc)
        | inr hm => exact hall v hm

/-- minByStart returns none exactly on the empty list. -/
theorem minByStart_eq_none (l : List TrackInfo) :
    minByStart l = none ↔ l = [] := by
  cases l with
  | nil => simp [minByStart]
  | cons u l =>
    simp only [minByStart, List.foldl_cons]
    constructor
    · intro h
      exact absurd h (minByStart_go_ne_none l u)
    · intro h
      exact absurd h (List.cons_ne_nil u l)

/-- A track returned by minByStart belongs to the list and has minimal
    start time among its elements. -/
theorem minByStart_some (l : List TrackInfo) (t : TrackInfo)
    (h : minByStart l = some t) :
    t ∈ l ∧ ∀ u ∈ l, t.start_time_utc ≤ u.start_time_utc := by
  cases l with
  | nil => simp [minByStart] at h
  | cons u l =>
    rw [minByStart, List.foldl_cons] at h
    obtain ⟨hmem, hle, hall⟩ := minByStart_go l u t h
    refine ⟨?_, ?_⟩
    · cases hmem with
      | inl he => exact he ▸ List.mem_cons_self u l
      | inr hm => exact List.mem_cons_of_mem u hm
    · intro v hv
      cases List.mem_cons.mp hv with
      | inl he => exact he ▸ hle
      | inr hm => exact hall v hm

/-- Folding recordTrack over a list keeps only the newest 32 entries: the
    result is the stated drop of the concatenation whenever the starting
    history respects the bound. -/
theorem foldl_recordTrack (ts : List TrackInfo) :
    ∀ h : List TrackInfo, h.length ≤ 32 →
      List.foldl recordTrack h ts = (h ++ ts).drop (h.length + ts.length - 32) := by
  induction ts with
  | nil =>
    intro h hh
    simp [Nat.sub_eq_zero_of_le hh]
  | cons t ts ih =>
    intro h hh
    rw [List.foldl_cons]
    by_cases h32 : h.length = 32
    · cases h with
      | nil => simp at h32
      | cons a h2 =>
        have h31 : h2.length = 31 := by
          simp at h32
          omega
        have hrec : recordTrack (a :: h2) t = h2 ++ [t] := by
          simp [recordTrack, h32]
        rw [hrec]
        have hlen : (h2 ++ [t]).length ≤ 32 := by
          simp [h31]
        rw [ih _ hlen]
        have i1 : (h2 ++ [t]).length + ts.length - 32 = ts.length := by
          simp [h31]
        have i2 : (a :: h2).length + (t :: ts).length - 32 = ts.length + 1 := by
          simp [h31]
        rw [i1, i2, List.cons_append, List.drop_succ_cons]
        simp [List.append_assoc]
    · have hlt : h.length < 32 := lt_of_le_of_ne hh h32
      have hrec : recordTrack h t = h ++ [t] := by
        simp [recordTrack, h32]
      rw [hrec, ih _ (by simp; omega)]
      rw [List.append_assoc, List.singleton_append]
      congr 1
      simp
      omega

/- Claim theorems. -/

/-- C1: for every history and every lag, pick_track_for_playback first
    computes playback_now with a checked subtraction and returns no match
    on underflow; otherwise it scans history most-recent first and returns
    the first track with positive duration whose half-open interval
    [start_time, start_time + duration) contains playback_now; failing
    that, the most recent track with start_time at most playback_now;
    failing both (including an empty history), no match.  Stated as
    equality with pick_for_offset_spec, the rule as the specification
    words it. -/
theorem c1_pick_matches_spec (now : Int) (history : List TrackInfo) (lag_ms : Nat) :
    pick_track_for_playback now history lag_ms = pick_for_offset_spec now history lag_ms := by
  have hpred : durationWindowHit = specPreferred := by
    funext pn t
    unfold durationWindowHit specPreferred
    by_cases hd : t.duration_secs = 0
    · simp [hd]
    · have hpos : 0 < t.duration_secs := Nat.pos_of_ne_zero hd
      simp [hd, hpos, ge_iff_le]
  unfold pick_track_for_playback pick_for_offset_spec
  rw [hpred]
  cases sysCheckedSub now (lagNs lag_ms) with
  | none => rfl
  | some pn =>
    have hfall : (fun t : TrackInfo => decide (pn ≥ t.start_time_utc)) = specFallback pn := by
      funext t
      simp [specFallback, ge_iff_le]
    simp only [hfall]

/-- C2: a scheduled switch captures the generation counter value current
    at schedule time (captureScheduleId returns the same value as id and
    as counter), at fire time it emits exactly when the counter still
    equals the captured id, and a schedule whose generation was
    invalidated (counter incremented past its id) before its fire time
    never emits, because the counter only ever grows by fetch_add(1). -/
theorem c2_invalidated_schedule_never_emits
    (g0 b_inv b_fire my_id lag_ms : Nat) (track : TrackInfo) (now : Int)
    (h_mono : b_inv ≤ b_fire)
    (h_invalidated : my_id < genCounterValue g0 b_inv) :
    (∀ gen, (captureScheduleId gen).1 = (captureScheduleId gen).2) ∧
    (∀ c, ((schedule_ui_switch_fire now c track lag_ms my_id).2 = some track ↔ c = my_id)) ∧
    (schedule_ui_switch_fire now (genCounterValue g0 b_fire) track lag_ms my_id).2 = none := by
  refine ⟨fun gen => rfl, ?_, ?_⟩
  · intro c
    by_cases hc : c = my_id
    · simp [schedule_ui_switch_fire, hc]
    · simp [schedule_ui_switch_fire, hc]
  · have hne : genCounterValue g0 b_fire ≠ my_id := by
      unfold genCounterValue at h_invalidated ⊢
      omega
    simp [schedule_ui_switch_fire, hne]

/-- Witness for C2 at concrete inputs: id 0 captured, invalidated after
    one bump, fired after two. -/
theorem c2_witness :
    1 ≤ 2 ∧ 0 < genCounterValue 0 1 ∧
    (schedule_ui_switch_fire 0 (genCounterValue 0 2)
      ⟨"a", "t", none, none, 0, 0⟩ 0 0).2 = none :=
  ⟨by decide, by decide,
    (c2_invalidated_schedule_never_emits 0 1 2 0 0 ⟨"a", "t", none, none, 0, 0⟩ 0
      (by decide) (by decide)).2.2⟩

/-- C3: the history never exceeds 32 entries, and after recording any
    sequence of tracks into the initially empty per-session history,
    exactly the most recently inserted min(N, 32) tracks remain, in
    insertion order: the result is the suffix tracks.drop (N - 32), which
    is all of tracks when N does not exceed 32. -/
theorem c3_history_bounded (tracks : List TrackInfo) :
    (historyAfter tracks).length ≤ 32 ∧
      historyAfter tracks = tracks.drop (tracks.length - 32) := by
  have hmain : historyAfter tracks = tracks.drop (tracks.length - 32) := by
    unfold historyAfter
    have h := foldl_recordTrack tracks [] (by simp)
    simpa using h
  refine ⟨?_, hmain⟩
  rw [hmain]
  simp [List.length_drop]
  omega

/-- Projection lemma: Resume never leaves the paused flag set. -/
theorem processResume_paused (now : Int) (history : List TrackInfo) (lag_ms gen : Nat) :
    (processResume now history lag_ms gen).paused = false := rfl

/-- Projection lemma: Resume emits the pick_track_for_playback result. -/
theorem processResume_emitted (now : Int) (history : List TrackInfo) (lag_ms gen : Nat) :
    (processResume now history lag_ms gen).emitted =
      pick_track_for_playback now history lag_ms := rfl

/-- Projection lemma: the armed switch of Resume comes from
    schedule_next_from_history run after the Resume generation bump. -/
theorem processResume_armed (now : Int) (history : List TrackInfo) (lag_ms gen : Nat) :
    (processResume now history lag_ms gen).armed =
      (schedule_next_from_history_model now history lag_ms (gen + 1)).1 := rfl

/-- Projection lemma: the generation value after Resume. -/
theorem processResume_genAfter (now : Int) (history : List TrackInfo) (lag_ms gen : Nat) :
    (processResume now history lag_ms gen).genAfter =
      (schedule_next_from_history_model now history lag_ms (gen + 1)).2 := rfl

/-- When the playback time is defined, schedule_next_from_history reduces
    to the min_by_key scan over the strictly-future entries. -/
theorem schedule_next_eq (now : Int) (history : List TrackInfo) (lag_ms gen : Nat)
    (pn : Int) (hpn : sysCheckedSub now (lagNs lag_ms) = some pn) :
    schedule_next_from_history_model now history lag_ms gen =
      match minByStart (history.filter (fun t => decide (pn < t.start_time_utc))) with
      | none => (none, gen)
      | some next => (some (next, gen + 1), gen + 1) := by
  unfold schedule_next_from_history_model
  rw [hpn]

/-- C4: processing Resume clears the paused flag, increments the
    generation counter (so every schedule id captured earlier is
    invalidated: a pending switch with id at most the old value can no
    longer emit), synchronously emits the pick_track_for_playback result,
    and arms at most one future switch, namely an entry of history with
    start_time strictly greater than playback_now that is minimal among
    all such entries, arming nothing exactly when no such entry exists. -/
theorem c4_resume_rearms_exactly_one (now : Int) (history : List TrackInfo)
    (lag_ms gen : Nat) (pn : Int)
    (hpn : sysCheckedSub now (lagNs lag_ms) = some pn) :
    (processResume now history lag_ms gen).paused = false ∧
    (processResume now history lag_ms gen).emitted =
      pick_track_for_playback now history lag_ms ∧
    gen < (processResume now history lag_ms gen).genAfter ∧
    (∀ pending_id, pending_id ≤ gen → ∀ (now2 : Int) (tr : TrackInfo),
      (schedule_ui_switch_fire now2 ((processResume now history lag_ms gen).genAfter)
        tr lag_ms pending_id).2 = none) ∧
    (∀ t i, (processResume now history lag_ms gen).armed = some (t, i) →
      t ∈ history ∧ pn < t.start_time_utc ∧
        (∀ u ∈ history, pn < u.start_time_utc → t.start_time_utc ≤ u.start_time_utc) ∧
        i = (processResume now history lag_ms gen).genAfter) ∧
    ((processResume now history lag_ms gen).armed = none ↔
      ∀ u ∈ history, ¬ pn < u.start_time_utc) := by
  cases hmin : minByStart
      (history.filter (fun t => decide (pn < t.start_time_utc))) with
  | none =>
    have hsn : schedule_next_from_history_model now history lag_ms (gen + 1) =
        (none, gen + 1) := by
      rw [schedule_next_eq now history lag_ms (gen + 1) pn hpn, hmin]
    have hnil := (minByStart_eq_none _).mp hmin
    simp only [List.filter_eq_nil_iff, decide_eq_true_eq] at hnil
    refine ⟨processResume_paused now history lag_ms gen,
      processResume_emitted now history lag_ms gen, ?_, ?_, ?_, ?_⟩
    · simp [processResume_genAfter, hsn]
    · intro pending_id hle now2 tr
      have hne : gen + 1 ≠ pending_id := by omega
      simp [processResume_genAfter, hsn, schedule_ui_switch_fire, hne]
    · intro t i h
      rw [processResume_armed, hsn] at h
      simp at h
    · rw [processResume_armed, hsn]
      simp
      intro u hu
      exact le_of_not_lt (hnil u hu)
  | some next =>
    have hsn : schedule_next_from_history_model now history lag_ms (gen + 1) =
        (some (next, gen + 1 + 1), gen + 1 + 1) := by
      rw [schedule_next_eq now history lag_ms (gen + 1) pn hpn, hmin]
    obtain ⟨hmem, hall⟩ := minByStart_some _ _ hmin
    rw [List.mem_filter] at hmem
    obtain ⟨hmemh, hfut⟩ := hmem
    rw [decide_eq_true_eq] at hfut
    refine ⟨processResume_paused now history lag_ms gen,
      processResume_emitted now history lag_ms gen, ?_, ?_, ?_, ?_⟩
    · simp [processResume_genAfter, hsn]
      omega
    · intro pending_id hle now2 tr
      have hne : gen + 1 + 1 ≠ pending_id := by omega
      simp [processResume_genAfter, hsn, schedule_ui_switch_fire, hne]
    · intro t i h
      rw [processResume_armed, hsn] at h
      simp only [Option.some.injEq, Prod.mk.injEq] at h
      obtain ⟨rfl, rfl⟩ := h
      refine ⟨hmemh, hfut, ?_, ?_⟩
      · intro u hu hufut
        exact hall u (List.mem_filter.mpr ⟨hu, by simpa using hufut⟩)
      · simp [processResume_genAfter, hsn]
    · rw [processResume_armed, hsn]
      constructor
      · intro h
        simp at h
      · intro h
        exact absurd hfut (h next hmemh)

/-- Witness for C4 at concrete inputs: now 0, empty history, lag 0,
    generation 0; the checked subtraction yields playback_now 0. -/
theorem c4_witness :
    (processResume 0 [] 0 0).paused = false ∧
    (processResume 0 [] 0 0).emitted = pick_track_for_playback 0 [] 0 ∧
    0 < (processResume 0 [] 0 0).genAfter ∧
    (∀ pending_id, pending_id ≤ 0 → ∀ (now2 : Int) (tr : TrackInfo),
      (schedule_ui_switch_fire now2 ((processResume 0 [] 0 0).genAfter)
        tr 0 pending_id).2 = none) ∧
    (∀ t i, (processResume 0 [] 0 0).armed = some (t, i) →
      t ∈ ([] : List TrackInfo) ∧ (0 : Int) < t.start_time_utc ∧
        (∀ u ∈ ([] : List TrackInfo), (0 : Int) < u.start_time_utc →
          t.start_time_utc ≤ u.start_time_utc) ∧
        i = (processResume 0 [] 0 0).genAfter) ∧
    ((processResume 0 [] 0 0).armed = none ↔
      ∀ u ∈ ([] : List TrackInfo), ¬ (0 : Int) < u.start_time_utc) :=
  c4_resume_rearms_exactly_one 0 [] 0 0 0 (by decide)

/-- The queue left by a session that consumed control messages up to and
    including the Stop appended by stop_inner is empty, since stop_inner
    appends the only Stop and then no further message can be sent. -/
theorem dropThroughStop_append (q : List Control) (hq : Control.Stop ∉ q) :
    dropThroughStop (q ++ [Control.Stop]) = [] := by
  induction q with
  | nil => rfl
  | cons c q ih =>
    have hc : c ≠ Control.Stop := fun h => hq (h ▸ List.mem_cons_self c q)
    have hq2 : Control.Stop ∉ q := fun h => hq (List.mem_cons_of_mem c h)
    cases c with
    | Stop => exact absurd rfl hc
    | Pause => simpa [dropThroughStop] using ih hq2
    | Resume => simpa [dropThroughStop] using ih hq2

/-- C5: after Meta::stop_inner sends Stop and drops the only sender, a
    session that ends because it observed that Stop leaves an empty,
    disconnected channel, and the outer reconnect loop then returns at its
    post-session try_recv check: no further session is ever started, for
    any amount of fuel.  The session count from the moment the Stop is
    issued is at most the one session already in flight. -/
theorem c5_stop_ends_worker_without_retry (q : List Control) (fuel : Nat)
    (sess : ControlChannel → ControlChannel × SessionEnd)
    (hq : Control.Stop ∉ q)
    (hsess : ∀ ch, sess ch = (⟨dropThroughStop ch.queue, ch.senderAlive⟩, SessionEnd.sawStop)) :
    runMetaLoop sess fuel (stop_inner_channel ⟨q, true⟩) ≤ 1 := by
  cases fuel with
  | zero => simp [runMetaLoop]
  | succ fuel =>
    cases q with
    | nil =>
      simp [runMetaLoop, stop_inner_channel, tryRecv]
    | cons c q2 =>
      have hc : c ≠ Control.Stop := fun h => hq (h ▸ List.mem_cons_self c q2)
      have hq2 : Control.Stop ∉ q2 := fun h => hq (List.mem_cons_of_mem c h)
      cases c with
      | Stop => exact absurd rfl hc
      | Pause =>
        simp [runMetaLoop, stop_inner_channel, tryRecv, hsess,
          dropThroughStop_append q2 hq2]
      | Resume =>
        simp [runMetaLoop, stop_inner_channel, tryRecv, hsess,
          dropThroughStop_append q2 hq2]

/-- Witness for C5 at concrete inputs: one queued Pause before the Stop,
    fuel 3, and the session behavior of consuming up to the Stop. -/
theorem c5_witness :
    runMetaLoop
      (fun ch => (⟨dropThroughStop ch.queue, ch.senderAlive⟩, SessionEnd.sawStop))
      3 (stop_inner_channel ⟨[Control.Pause], true⟩) ≤ 1 :=
  c5_stop_ends_worker_without_retry [Control.Pause] 3 _ (by decide) (fun ch => rfl)

/-- C6 counterexample: a first text message that cannot be decoded as an
    envelope is NOT treated as no-heartbeat-interval; read_hello_heartbeat
    propagates the decode error (the question mark on gateway.rs line 276)
    and the session fails before reaching Streaming. -/
theorem c6_counterexample :
    read_hello_heartbeat FirstMessage.textNoEnvelope = HelloResult.sessionError ∧
    read_hello_heartbeat FirstMessage.textNoEnvelope ≠ HelloResult.ok none :=
  ⟨rfl, by decide⟩

/-- C6 amended: a first message that is a decodable non-hello envelope, a
    non-text frame, or an immediate connection close yields Ok with no
    heartbeat interval (session proceeds with heartbeats disabled), and a
    decodable hello yields its interval; but a first text message that
    fails envelope decoding, or a hello whose payload fails to decode,
    ends the session with an error instead. -/
theorem c6_undecodable_hello_is_error (op : Nat) (hb : Option Nat) (h : Nat)
    (hop : op ≠ 0) :
    read_hello_heartbeat FirstMessage.nonText = HelloResult.ok none ∧
    read_hello_heartbeat FirstMessage.connectionClosed = HelloResult.ok none ∧
    read_hello_heartbeat (FirstMessage.textEnvelope op hb) = HelloResult.ok none ∧
    read_hello_heartbeat (FirstMessage.textEnvelope 0 (some h)) = HelloResult.ok (some h) ∧
    read_hello_heartbeat (FirstMessage.textEnvelope 0 none) = HelloResult.sessionError ∧
    read_hello_heartbeat FirstMessage.textNoEnvelope = HelloResult.sessionError := by
  refine ⟨rfl, rfl, ?_, rfl, rfl, rfl⟩
  simp [read_hello_heartbeat, hop]

/-- Witness for C6 at concrete inputs: opcode 10 with no payload interval. -/
theorem c6_witness :
    read_hello_heartbeat FirstMessage.nonText = HelloResult.ok none ∧
    read_hello_heartbeat FirstMessage.connectionClosed = HelloResult.ok none ∧
    read_hello_heartbeat (FirstMessage.textEnvelope 10 none) = HelloResult.ok none ∧
    read_hello_heartbeat (FirstMessage.textEnvelope 0 (some 45000)) =
      HelloResult.ok (some 45000) ∧
    read_hello_heartbeat (FirstMessage.textEnvelope 0 none) = HelloResult.sessionError ∧
    read_hello_heartbeat FirstMessage.textNoEnvelope = HelloResult.sessionError :=
  c6_undecodable_hello_is_error 10 none 45000 (by decide)

/-- Track used to exhibit checked-addition overflow: its start time is the
    largest representable instant. -/
def trackNearMax : TrackInfo :=
  ⟨"a", "b", none, none, SYSTIME_MAX_NS, 0⟩

/-- C7 counterexample: when start_time + lag overflows, the checked
    addition does report none, but the scheduled switch is NOT dropped:
    the spawned body skips only the sleep and then still sends the track
    whenever the generation check passes (gateway.rs schedule path,
    schedule.rs lines 46-57). -/
theorem c7_counterexample :
    sysCheckedAdd trackNearMax.start_time_utc (lagNs 1) = none ∧
    (schedule_ui_switch_fire 0 7 trackNearMax 1 7).2 = some trackNearMax :=
  ⟨by decide, rfl⟩

/-- C7 amended: checked time arithmetic reports failure instead of
    wrapping, and on failure the affected operation degrades as follows:
    playback-time underflow makes pick_track_for_playback return no match
    and makes schedule_next_from_history arm nothing; but overflow of
    start_time + lag in a scheduled switch only skips the timed wait - the
    switch then proceeds immediately to the generation check and still
    emits when the generation matches. -/
theorem c7_overflow_skips_only_sleep (now : Int) (history : List TrackInfo)
    (lag_ms gen c my_id : Nat) (track : TrackInfo)
    (hov : sysCheckedAdd track.start_time_utc (lagNs lag_ms) = none)
    (hun : sysCheckedSub now (lagNs lag_ms) = none) :
    pick_track_for_playback now history lag_ms = none ∧
    (schedule_next_from_history_model now history lag_ms gen).1 = none ∧
    schedule_ui_switch_fire now c track lag_ms my_id =
      (false, if c = my_id then some track else none) := by
  refine ⟨?_, ?_, ?_⟩
  · simp [pick_track_for_playback, hun]
  · simp [schedule_next_from_history_model, hun]
  · simp [schedule_ui_switch_fire, hov]

/-- Witness for C7 at concrete inputs: start at the maximal instant with
    lag 1 ms overflows; now at the minimal instant with lag 1 ms
    underflows. -/
theorem c7_witness :
    pick_track_for_playback SYSTIME_MIN_NS [] 1 = none ∧
    (schedule_next_from_history_model SYSTIME_MIN_NS [] 1 0).1 = none ∧
    schedule_ui_switch_fire SYSTIME_MIN_NS 3 trackNearMax 1 3 =
      (false, if 3 = 3 then some trackNearMax else none) :=
  c7_overflow_skips_only_sleep SYSTIME_MIN_NS [] 1 0 3 3 trackNearMax
    (by decide) (by decide)

/-- C8 counterexample: a session whose first message is a decodable
    non-hello envelope still sends the immediate post-handshake heartbeat
    frame (gateway.rs line 137 runs unconditionally after the hello read
    returns Ok), contradicting only-on-hello and no-frames-at-all. -/
theorem c8_counterexample :
    sessionSetup (FirstMessage.textEnvelope 10 none) =
      some ([ClientFrame.heartbeatFrame], none) ∧
    [ClientFrame.heartbeatFrame] ≠ ([] : List ClientFrame) :=
  ⟨rfl, by decide⟩

/-- C8 amended: whenever the hello read completes without a session error
    - whether or not a heartbeat interval was obtained - exactly one
    immediate heartbeat frame is sent; the session aborts before sending
    anything exactly when the hello read errored; the interval recorded is
    the one the hello read produced, and only its presence arms the
    periodic heartbeat timer. -/
theorem c8_immediate_heartbeat_unconditional (m : FirstMessage) :
    (∀ frames hb, sessionSetup m = some (frames, hb) →
      frames = [ClientFrame.heartbeatFrame] ∧
        read_hello_heartbeat m = HelloResult.ok hb ∧
        periodicHeartbeatArmed hb = hb.isSome) ∧
    (sessionSetup m = none ↔ read_hello_heartbeat m = HelloResult.sessionError) := by
  unfold sessionSetup
  cases hr : read_hello_heartbeat m with
  | ok hb =>
    constructor
    · intro frames hb2 h
      simp only [Option.some.injEq, Prod.mk.injEq] at h
      obtain ⟨rfl, rfl⟩ := h
      exact ⟨rfl, rfl, rfl⟩
    · simp
  | sessionError =>
    constructor
    · intro frames hb2 h
      simp at h
    · simp

/-- Witness for C8 at a concrete input: a non-text first message. -/
theorem c8_witness :
    sessionSetup FirstMessage.nonText = some ([ClientFrame.heartbeatFrame], none) ∧
    ([ClientFrame.heartbeatFrame] = [ClientFrame.heartbeatFrame] ∧
      read_hello_heartbeat FirstMessage.nonText = HelloResult.ok none ∧
      periodicHeartbeatArmed none = Option.isSome (none : Option Nat)) :=
  ⟨rfl, (c8_immediate_heartbeat_unconditional FirstMessage.nonText).1
    [ClientFrame.heartbeatFrame] none rfl⟩

/-- C9 counterexample: start() on a Running controller is not a no-op: it
    spawns no worker, but it sends Control::Resume to the active worker
    (controller.rs lines 76-79), an observable effect that changes the
    control channel. -/
theorem c9_counterexample :
    Meta.start (MetaState.running ⟨[], true⟩) =
      (MetaState.running ⟨[Control.Resume], true⟩, false) ∧
    MetaState.running (⟨[Control.Resume], true⟩ : ControlChannel) ≠
      MetaState.running ⟨[], true⟩ :=
  ⟨rfl, by decide⟩

/-- C9 amended: start() on a Running controller spawns no worker and the
    state stays Running, but Control::Resume is appended to the control
    channel of the active worker; only when the controller is Stopped does
    start() spawn the worker (with a fresh channel) and transition to
    Running. -/
theorem c9_start_on_running_sends_resume (ch : ControlChannel) :
    Meta.start (MetaState.running ch) =
      (MetaState.running (sendControl ch Control.Resume), false) ∧
    Meta.start MetaState.stopped = (MetaState.running ⟨[], true⟩, true) ∧
    (sendControl ch Control.Resume).queue = ch.queue ++ [Control.Resume] :=
  ⟨rfl, rfl, rfl⟩

/-- C10: for a successfully parsed track payload, the artist field is the
    sentinel "Unknown artist" exactly when the artists array is empty;
    when the array is non-empty it is the comma-space join of only the
    present names, so a non-empty array in which every entry lacks a name
    yields the empty string. -/
theorem c10_artist_join_skips_unnamed (parseTime : String → Option Int)
    (p : GatewaySongPayload) (t : TrackInfo)
    (hp : parse_track_info parseTime (some p) = some t) :
    (p.song.artists = [] → t.artist = "Unknown artist") ∧
    (p.song.artists ≠ [] →
      t.artist = String.intercalate ", " (p.song.artists.filterMap (fun a => a.name))) ∧
    ((∀ a ∈ p.song.artists, a.name = none) → p.song.artists ≠ [] → t.artist = "") := by
  simp only [parse_track_info] at hp
  cases hpt : parseTime p.start_time with
  | none =>
    rw [hpt] at hp
    simp at hp
  | some s =>
    rw [hpt] at hp
    simp only [Option.some.injEq] at hp
    subst hp
    refine ⟨?_, ?_, ?_⟩
    · intro hnil
      simp [hnil]
    · intro hne
      simp [List.isEmpty_iff, hne]
    · intro hall hne
      have hfm : p.song.artists.filterMap (fun a => a.name) = [] :=
        List.filterMap_eq_nil_iff.mpr hall
      simp only [List.isEmpty_iff, hne, if_neg, hfm]
      rfl

/-- Payload with two artists, both unnamed, used as the C10 witness. -/
def payloadNoNames : GatewaySongPayload :=
  ⟨⟨none, [⟨none, none⟩, ⟨none, none⟩], [], none⟩, "2024-01-01T00:00:00Z"⟩

/-- Witness for C10 at concrete inputs: both artists unnamed gives an
    empty artist string, not the sentinel. -/
theorem c10_witness :
    (payloadNoNames.song.artists = [] →
      TrackInfo.artist ⟨"", "unknown title", none, none, 0, 0⟩ = "Unknown artist") ∧
    (payloadNoNames.song.artists ≠ [] →
      TrackInfo.artist ⟨"", "unknown title", none, none, 0, 0⟩ =
        String.intercalate ", " (payloadNoNames.song.artists.filterMap (fun a => a.name))) ∧
    ((∀ a ∈ payloadNoNames.song.artists, a.name = none) →
      payloadNoNames.song.artists ≠ [] →
      TrackInfo.artist ⟨"", "unknown title", none, none, 0, 0⟩ = "") :=
  c10_artist_join_skips_unnamed (fun _ => some 0) payloadNoNames
    ⟨"", "unknown title", none, none, 0, 0⟩ rfl
